import Mathlib

/-!
Verification of the provider layer of the llm-council backend
(src/backend/providers/base.py, openrouter.py, deepseek.py, zhipu.py,
moonshot.py), as a shallow embedding.

Strings are modelled as lists of characters, Python dicts (insertion
ordered, keyed by strings) as insertion-ordered association lists, and
the network as an explicit value describing the outcome of the single
HTTP exchange an adapter performs.
-/

/-- Model identifiers, provider names and message fields are modelled as
lists of characters. -/
abbrev Str := List Char

/-- A chat message: a dict with role and content entries. -/
structure Message where
  role : Str
  content : Str
  deriving DecidableEq

/-- Python dict assignment on an insertion-ordered association list:
an existing key keeps its position and gets the new value, a new key is
appended at the end. -/
def dictInsert {α : Type} (d : List (Str × α)) (k : Str) (v : α) : List (Str × α) :=
  match d with
  | [] => [(k, v)]
  | p :: rest => if p.1 = k then (k, v) :: rest else p :: dictInsert rest k v

/-- Python dict lookup: the value stored at a key, if present. -/
def dictGet? {α : Type} (d : List (Str × α)) (k : Str) : Option α :=
  (d.find? (fun p => p.1 == k)).map (fun p => p.2)

/-- The keys of a dict, in insertion order. -/
def dictKeys {α : Type} (d : List (Str × α)) : List Str := d.map (fun p => p.1)

/-- A Python dict comprehension over a list of key-value pairs: later
occurrences of a key overwrite the stored value of the single entry. -/
def dictOfPairs {α : Type} (ps : List (Str × α)) : List (Str × α) :=
  ps.foldl (fun d p => dictInsert d p.1 p.2) []

/-- An LLMProvider instance as the registry sees it: its provider_name
property and its supports_model method. -/
structure Provider where
  name : Str
  supports_model : Str → Bool

/-- ProviderRegistry state: the providers dict (keyed by provider_name,
in insertion order) and the name of the default provider, if any. -/
structure ProviderRegistry where
  providers : List (Str × Provider)
  default_provider : Option Str

/-- A freshly constructed ProviderRegistry. -/
def ProviderRegistry.empty : ProviderRegistry :=
  { providers := [], default_provider := none }

/-- ProviderRegistry.register: store the provider under its name; make
it the default when is_default is set or no default exists yet. -/
def ProviderRegistry.register (r : ProviderRegistry) (p : Provider) (is_default : Bool) :
    ProviderRegistry :=
  { providers := dictInsert r.providers p.name p,
    default_provider :=
      if is_default || r.default_provider.isNone then some p.name else r.default_provider }

/-- ProviderRegistry.get_provider: scan the providers dict in insertion
order for the first supporting provider; otherwise fall back to the
default provider when its name is truthy (nonempty) and registered. -/
def ProviderRegistry.get_provider (r : ProviderRegistry) (model_identifier : Str) :
    Option Provider :=
  match r.providers.find? (fun pr => pr.2.supports_model model_identifier) with
  | some pr => some pr.2
  | none =>
    match r.default_provider with
    | none => none
    | some d => if d = [] then none else dictGet? r.providers d

/-- ProviderRegistry.query_model: resolve the provider, return None on
failure, otherwise delegate to the provider's query (abstracted as q). -/
def ProviderRegistry.query_model {α : Type} (r : ProviderRegistry)
    (q : Provider → Str → List Message → Option α) (model : Str)
    (messages : List Message) : Option α :=
  match r.get_provider model with
  | none => none
  | some p => q p model messages

/-- ProviderRegistry.query_model instrumented with the list of
(provider name, model) query invocations it performs: the code calls
provider.query exactly once after a successful resolution and never
otherwise. -/
def ProviderRegistry.query_model_traced {α : Type} (r : ProviderRegistry)
    (q : Provider → Str → List Message → Option α) (model : Str)
    (messages : List Message) : Option α × List (Str × Str) :=
  match r.get_provider model with
  | none => (none, [])
  | some p => (q p model messages, [(p.name, model)])

/-- ProviderRegistry.query_models_parallel: asyncio.gather returns the
per-model outcomes in input order, and the dict comprehension zips the
identifiers with those outcomes. -/
def ProviderRegistry.query_models_parallel {α : Type} (r : ProviderRegistry)
    (q : Provider → Str → List Message → Option α) (models : List Str)
    (messages : List Message) : List (Str × Option α) :=
  dictOfPairs (models.map (fun m => (m, r.query_model q m messages)))

/-- The part of a Python string before the first slash:
model_identifier.split("/")[0]. -/
def splitFirst (s : Str) : Str := s.takeWhile (fun c => c != '/')

/-- The part of a Python string after the first slash:
model_identifier.split("/", 1)[1], defined when a slash is present. -/
def afterFirstSlash (s : Str) : Str := (s.dropWhile (fun c => c != '/')).tail

/-- Python str.lower, character by character. -/
def lowerStr (s : Str) : Str := s.map Char.toLower

/-- LLMProvider.supports_model (the base-class default): the identifier
starts with the provider name followed by a slash. -/
def base_supports_model (name : Str) (model_identifier : Str) : Bool :=
  (name ++ ['/']).isPrefixOf model_identifier

/-- LLMProvider.extract_model_name: everything after the first slash,
or the identifier unchanged when it has no slash. -/
def extract_model_name (model_identifier : Str) : Str :=
  if model_identifier.contains '/' then afterFirstSlash model_identifier
  else model_identifier

/-- OpenRouterProvider.SUPPORTED_PREFIXES. -/
def SUPPORTED_PREFIXES : List Str :=
  [ "openai".toList, "anthropic".toList, "google".toList, "meta-llama".toList,
    "x-ai".toList, "mistralai".toList, "microsoft".toList, "cohere".toList,
    "perplexity".toList, "qwen".toList ]

/-- OpenRouterProvider.supports_model: false without a slash, otherwise
the exact (case-sensitive) part before the first slash must be listed. -/
def openrouter_supports_model (model_identifier : Str) : Bool :=
  if !(model_identifier.contains '/') then false
  else SUPPORTED_PREFIXES.contains (splitFirst model_identifier)

/-- DeepSeekProvider does not override supports_model, so it uses the
base-class check with provider_name deepseek. -/
def deepseek_supports_model (model_identifier : Str) : Bool :=
  base_supports_model ("deepseek".toList) model_identifier

/-- ZhipuProvider.supports_model: false without a slash, otherwise the
lowercased part before the first slash must be zhipu or glm. -/
def zhipu_supports_model (model_identifier : Str) : Bool :=
  if !(model_identifier.contains '/') then false
  else [ "zhipu".toList, "glm".toList ].contains (lowerStr (splitFirst model_identifier))

/-- MoonshotProvider.supports_model: false without a slash, otherwise
the lowercased part before the first slash must be moonshot or kimi. -/
def moonshot_supports_model (model_identifier : Str) : Bool :=
  if !(model_identifier.contains '/') then false
  else [ "moonshot".toList, "kimi".toList ].contains (lowerStr (splitFirst model_identifier))

/-- The OpenRouter adapter as a registry entry. -/
def openrouterProvider : Provider :=
  { name := "openrouter".toList, supports_model := openrouter_supports_model }

/-- The DeepSeek adapter as a registry entry. -/
def deepseekProvider : Provider :=
  { name := "deepseek".toList, supports_model := deepseek_supports_model }

/-- The Zhipu (GLM) adapter as a registry entry. -/
def zhipuProvider : Provider :=
  { name := "zhipu".toList, supports_model := zhipu_supports_model }

/-- The Moonshot (Kimi) adapter as a registry entry. -/
def moonshotProvider : Provider :=
  { name := "moonshot".toList, supports_model := moonshot_supports_model }

/-- The registry built by _initialize_providers when all four API keys
are present: OpenRouter registered first as the default, then DeepSeek,
Zhipu and Moonshot. -/
def fullRegistry : ProviderRegistry :=
  (((ProviderRegistry.empty.register openrouterProvider true).register
      deepseekProvider false).register zhipuProvider false).register
    moonshotProvider false

/-- JSON values as Python's json module decodes them (numbers are kept
abstract as integers; no claim inspects them numerically). -/
inductive Json where
  | null
  | bool (b : Bool)
  | num (n : Int)
  | str (s : Str)
  | arr (items : List Json)
  | obj (fields : List (Str × Json))

/-- Python subscription data[key]: raises unless the value is a dict
containing the key. -/
def jsonIndexKey (j : Json) (k : Str) : Except Unit Json :=
  match j with
  | Json.obj fields =>
    match fields.find? (fun f => f.1 == k) with
    | some f => Except.ok f.2
    | none => Except.error ()
  | _ => Except.error ()

/-- Python subscription value[0] as it behaves on decoded JSON: yields
the first element of a nonempty array and raises otherwise. (On a JSON
string it would yield a one-character string on which the following
subscription by key raises, so the query outcome is unchanged.) -/
def jsonIndexZero (j : Json) : Except Unit Json :=
  match j with
  | Json.arr (x :: _) => Except.ok x
  | _ => Except.error ()

/-- Python dict.get(key): raises unless the value is a dict; a missing
key yields None (Json.null) rather than raising. -/
def jsonGet (j : Json) (k : Str) : Except Unit Json :=
  match j with
  | Json.obj fields =>
    match fields.find? (fun f => f.1 == k) with
    | some f => Except.ok f.2
    | none => Except.ok Json.null
  | _ => Except.error ()

/-- The four concrete adapter variants. -/
inductive Adapter where
  | openrouter
  | deepseek
  | zhipu
  | moonshot
  deriving DecidableEq

/-- The JSON request body an adapter posts: a model entry and a
messages entry. -/
structure RequestPayload where
  model : Str
  messages : List Message
  deriving DecidableEq

/-- The payload each adapter builds: OpenRouter sends the full
identifier, the other three send extract_model_name of it; all four
place the messages list in the payload as given. -/
def adapter_request (a : Adapter) (model : Str) (messages : List Message) :
    RequestPayload :=
  match a with
  | Adapter.openrouter => { model := model, messages := messages }
  | Adapter.deepseek => { model := extract_model_name model, messages := messages }
  | Adapter.zhipu => { model := extract_model_name model, messages := messages }
  | Adapter.moonshot => { model := extract_model_name model, messages := messages }

/-- The normalized outcome dict an adapter returns on success: a
content entry and a reasoning_details entry (either may be null). -/
structure QueryResponse where
  content : Json
  reasoning_details : Json

/-- The outcome of the single HTTP exchange: either the transport
raised (connection failure, timeout, ...) or a response arrived with a
status code and a body (none models a body response.json() cannot
decode). -/
inductive HttpResult where
  | transportError
  | response (status : Nat) (body : Option Json)

/-- The subscription chain data['choices'][0]['message']. -/
def extractMessage (data : Json) : Except Unit Json := do
  let choices ← jsonIndexKey data ("choices".toList)
  let first ← jsonIndexZero choices
  jsonIndexKey first ("message".toList)

/-- The reasoning entry of the outcome dict: OpenRouter reads
message.get of reasoning_details, DeepSeek message.get of
reasoning_content, Zhipu and Moonshot store None. -/
def adapterReasoning (a : Adapter) (message : Json) : Except Unit Json :=
  match a with
  | Adapter.openrouter => jsonGet message ("reasoning_details".toList)
  | Adapter.deepseek => jsonGet message ("reasoning_content".toList)
  | Adapter.zhipu => Except.ok Json.null
  | Adapter.moonshot => Except.ok Json.null

/-- The body of the try block once the post call yields: a transport
error propagates as a raise; raise_for_status raises on a non-success
status; response.json() raises on an undecodable body; then the message
fields are extracted and the outcome dict is built. -/
def adapterTryBody (a : Adapter) (result : HttpResult) : Except Unit QueryResponse :=
  match result with
  | HttpResult.transportError => Except.error ()
  | HttpResult.response status body =>
    if 200 ≤ status ∧ status < 300 then
      match body with
      | none => Except.error ()
      | some data =>
        match extractMessage data with
        | Except.error e => Except.error e
        | Except.ok message =>
          match jsonGet message ("content".toList) with
          | Except.error e => Except.error e
          | Except.ok content =>
            match adapterReasoning a message with
            | Except.error e => Except.error e
            | Except.ok reasoning =>
              Except.ok { content := content, reasoning_details := reasoning }
    else Except.error ()

/-- Adapter query: post the payload built by adapter_request, then run
the try-block body on the outcome of the exchange; the catch-all except
clause turns every raised error into None. The net argument abstracts
the backend: it maps the posted payload to the outcome of the exchange
(a timeout value only influences this outcome). -/
def adapter_query (a : Adapter) (model : Str) (messages : List Message)
    (net : RequestPayload → HttpResult) : Option QueryResponse :=
  match adapterTryBody a (net (adapter_request a model messages)) with
  | Except.ok v => some v
  | Except.error _ => none

/-- The part before the first slash of an identifier built as a
slash-free piece, a slash, and a remainder is that piece. -/
theorem splitFirst_append_slash (p s : Str) (h : '/' ∉ p) :
    splitFirst (p ++ '/' :: s) = p := by
  unfold splitFirst
  induction p with
  | nil => simp
  | cons a p ih =>
    simp only [List.mem_cons, not_or] at h
    simp only [List.cons_append, List.takeWhile_cons]
    have ha : (a != '/') = true := by
      simp only [bne_iff_ne, ne_eq]
      exact fun hh => h.1 hh.symm
    simp [ha, ih h.2]

/-- The part after the first slash of an identifier built as a
slash-free piece, a slash, and a remainder is that remainder. -/
theorem afterFirstSlash_append_slash (p s : Str) (h : '/' ∉ p) :
    afterFirstSlash (p ++ '/' :: s) = s := by
  unfold afterFirstSlash
  have hd : (p ++ '/' :: s).dropWhile (fun c => c != '/') = '/' :: s := by
    induction p with
    | nil => simp
    | cons a p ih =>
      simp only [List.mem_cons, not_or] at h
      simp only [List.cons_append, List.dropWhile_cons]
      have ha : (a != '/') = true := by
        simp only [bne_iff_ne, ne_eq]
        exact fun hh => h.1 hh.symm
      simp [ha, ih h.2]
  simp [hd]

/-- An identifier with a slash in it passes the contains check. -/
theorem contains_slash_append (p s : Str) : (p ++ '/' :: s).contains '/' = true := by
  simp

/-- An identifier without some character fails the contains check. -/
theorem contains_eq_false {c : Char} {s : Str} (h : c ∉ s) : s.contains c = false := by
  simp [h]

/-- C9: for every adapter variant, every model identifier and every
ordered message list, the messages entry of the JSON request body the
adapter posts is exactly the input message list, unchanged. -/
theorem C9_messages_forwarded_verbatim (a : Adapter) (model : Str)
    (messages : List Message) :
    (adapter_request a model messages).messages = messages := by
  cases a <;> rfl

/-- C8: extract_model_name returns the portion after the first slash
when the identifier contains one, returns the identifier unchanged when
it contains no slash, and in particular maps deepseek/deepseek-chat to
deepseek-chat and deepseek-chat to itself. -/
theorem C8_extract_model_name_spec (pre post id : Str) :
    ('/' ∉ pre → extract_model_name (pre ++ '/' :: post) = post) ∧
    ('/' ∉ id → extract_model_name id = id) ∧
    extract_model_name ("deepseek/deepseek-chat".toList) = "deepseek-chat".toList ∧
    extract_model_name ("deepseek-chat".toList) = "deepseek-chat".toList := by
  refine ⟨?_, ?_, by decide, by decide⟩
  · intro h
    unfold extract_model_name
    rw [contains_slash_append]
    simp [afterFirstSlash_append_slash pre post h]
  · intro h
    unfold extract_model_name
    rw [contains_eq_false h]
    simp

/-- Witness for C8 at concrete inputs. -/
theorem C8_extract_model_name_spec_witness :
    extract_model_name ("ns".toList ++ '/' :: "tail".toList) = "tail".toList ∧
    extract_model_name ("plain-model".toList) = "plain-model".toList :=
  ⟨ (C8_extract_model_name_spec ("ns".toList) ("tail".toList) ("plain-model".toList)).1
      (by decide),
    (C8_extract_model_name_spec ("ns".toList) ("tail".toList) ("plain-model".toList)).2.1
      (by decide) ⟩

/-- C7: an identifier in the deepseek namespace is claimed by exactly
the DeepSeek adapter: its supports_model answers true while the
OpenRouter, Zhipu and Moonshot ones answer false. -/
theorem C7_deepseek_namespace_partition (rest : Str) :
    deepseek_supports_model ("deepseek/".toList ++ rest) = true ∧
    openrouter_supports_model ("deepseek/".toList ++ rest) = false ∧
    zhipu_supports_model ("deepseek/".toList ++ rest) = false ∧
    moonshot_supports_model ("deepseek/".toList ++ rest) = false := by
  have hds : ("deepseek/".toList : Str) = "deepseek".toList ++ ['/'] := by decide
  have he : ("deepseek/".toList : Str) ++ rest = "deepseek".toList ++ '/' :: rest := by
    rw [hds, List.append_assoc]
    rfl
  have hns : ('/' : Char) ∉ "deepseek".toList := by decide
  have hcon : ("deepseek".toList ++ '/' :: rest).contains '/' = true :=
    contains_slash_append _ _
  have hsplit : splitFirst ("deepseek".toList ++ '/' :: rest) = "deepseek".toList :=
    splitFirst_append_slash _ _ hns
  rw [he]
  refine ⟨?_, ?_, ?_, ?_⟩
  · unfold deepseek_supports_model base_supports_model
    rw [List.isPrefixOf_iff_prefix]
    rw [List.append_cons]
    exact List.prefix_append _ _
  · unfold openrouter_supports_model
    rw [hcon, hsplit]
    decide
  · unfold zhipu_supports_model
    rw [hcon, hsplit]
    decide
  · unfold moonshot_supports_model
    rw [hcon, hsplit]
    decide

/-- The providers dict of the fully initialized registry, in
registration order. -/
theorem fullRegistry_providers :
    fullRegistry.providers =
      [ ("openrouter".toList, openrouterProvider), ("deepseek".toList, deepseekProvider),
        ("zhipu".toList, zhipuProvider), ("moonshot".toList, moonshotProvider) ] := by
  rfl

/-- C6: an identifier containing no slash is supported by none of the
four adapters — default and non-default alike — so resolution in the
fully initialized registry returns the fallback (default) adapter,
OpenRouter. -/
theorem C6_no_slash_resolves_to_fallback (id : Str) (h : '/' ∉ id) :
    openrouter_supports_model id = false ∧
    deepseek_supports_model id = false ∧
    zhipu_supports_model id = false ∧
    moonshot_supports_model id = false ∧
    fullRegistry.get_provider id = some openrouterProvider := by
  have hc : id.contains '/' = false := contains_eq_false h
  have ho : openrouter_supports_model id = false := by
    simp [openrouter_supports_model, hc, h]
  have hd : deepseek_supports_model id = false := by
    cases hb : deepseek_supports_model id with
    | false => rfl
    | true =>
      exfalso
      unfold deepseek_supports_model base_supports_model at hb
      have hb' := List.isPrefixOf_iff_prefix.mp hb
      exact h (hb'.subset (by simp))
  have hz : zhipu_supports_model id = false := by
    simp [zhipu_supports_model, hc, h]
  have hm : moonshot_supports_model id = false := by
    simp [moonshot_supports_model, hc, h]
  have hfind : fullRegistry.providers.find? (fun pr => pr.2.supports_model id) = none := by
    apply List.find?_eq_none.mpr
    intro x hx
    rw [fullRegistry_providers] at hx
    simp only [List.mem_cons, List.not_mem_nil, or_false] at hx
    rcases hx with h1 | h2 | h3 | h4
    · rw [h1]
      simp [openrouterProvider, ho]
    · rw [h2]
      simp [deepseekProvider, hd]
    · rw [h3]
      simp [zhipuProvider, hz]
    · rw [h4]
      simp [moonshotProvider, hm]
  refine ⟨ho, hd, hz, hm, ?_⟩
  unfold ProviderRegistry.get_provider
  rw [hfind]
  rfl

/-- Witness for C6 at a concrete slash-free identifier. -/
theorem C6_no_slash_resolves_to_fallback_witness :
    openrouter_supports_model ("gpt-4o".toList) = false ∧
    deepseek_supports_model ("gpt-4o".toList) = false ∧
    zhipu_supports_model ("gpt-4o".toList) = false ∧
    moonshot_supports_model ("gpt-4o".toList) = false ∧
    fullRegistry.get_provider ("gpt-4o".toList) = some openrouterProvider :=
  C6_no_slash_resolves_to_fallback ("gpt-4o".toList) (by decide)

/-- C10: namespace matching is case-insensitive for the Zhipu and
Moonshot adapters — every letter case of zhipu/glm and moonshot/kimi is
accepted — but case-sensitive for OpenRouter: any variant of a
recognized namespace that is not written exactly as listed is rejected;
in particular GLM and Kimi namespaces match while OpenAI does not. -/
theorem C10_namespace_case_handling (s : Str) :
    (∀ p : Str, lowerStr p = "zhipu".toList ∨ lowerStr p = "glm".toList →
        zhipu_supports_model (p ++ '/' :: s) = true) ∧
    (∀ p : Str, lowerStr p = "moonshot".toList ∨ lowerStr p = "kimi".toList →
        moonshot_supports_model (p ++ '/' :: s) = true) ∧
    (∀ p : Str, lowerStr p ∈ SUPPORTED_PREFIXES → p ∉ SUPPORTED_PREFIXES →
        openrouter_supports_model (p ++ '/' :: s) = false) ∧
    zhipu_supports_model ("GLM/".toList ++ s) = true ∧
    moonshot_supports_model ("Kimi/".toList ++ s) = true ∧
    openrouter_supports_model ("OpenAI/".toList ++ s) = false := by
  have part1 : ∀ p : Str, lowerStr p = "zhipu".toList ∨ lowerStr p = "glm".toList →
      zhipu_supports_model (p ++ '/' :: s) = true := by
    intro p hp
    have hnp : ('/' : Char) ∉ p := by
      intro hmem
      have hm2 : ('/' : Char) ∈ lowerStr p := List.mem_map.mpr ⟨ '/', hmem, by decide⟩
      rcases hp with h' | h' <;> rw [h'] at hm2 <;> exact absurd hm2 (by decide)
    unfold zhipu_supports_model
    rw [contains_slash_append, splitFirst_append_slash _ _ hnp]
    rcases hp with h' | h' <;> rw [h'] <;> decide
  have part2 : ∀ p : Str, lowerStr p = "moonshot".toList ∨ lowerStr p = "kimi".toList →
      moonshot_supports_model (p ++ '/' :: s) = true := by
    intro p hp
    have hnp : ('/' : Char) ∉ p := by
      intro hmem
      have hm2 : ('/' : Char) ∈ lowerStr p := List.mem_map.mpr ⟨ '/', hmem, by decide⟩
      rcases hp with h' | h' <;> rw [h'] at hm2 <;> exact absurd hm2 (by decide)
    unfold moonshot_supports_model
    rw [contains_slash_append, splitFirst_append_slash _ _ hnp]
    rcases hp with h' | h' <;> rw [h'] <;> decide
  have part3 : ∀ p : Str, lowerStr p ∈ SUPPORTED_PREFIXES → p ∉ SUPPORTED_PREFIXES →
      openrouter_supports_model (p ++ '/' :: s) = false := by
    intro p h1 h2
    have hps : ∀ q ∈ SUPPORTED_PREFIXES, ('/' : Char) ∉ q := by decide
    have hnp : ('/' : Char) ∉ p := by
      intro hmem
      have hm2 : ('/' : Char) ∈ lowerStr p := List.mem_map.mpr ⟨ '/', hmem, by decide⟩
      exact hps _ h1 hm2
    unfold openrouter_supports_model
    rw [contains_slash_append, splitFirst_append_slash _ _ hnp]
    simp [h2]
  have hGe : ("GLM/".toList : Str) ++ s = "GLM".toList ++ '/' :: s := by
    rw [show ("GLM/".toList : Str) = "GLM".toList ++ ['/'] by decide, List.append_assoc]
    rfl
  have hKe : ("Kimi/".toList : Str) ++ s = "Kimi".toList ++ '/' :: s := by
    rw [show ("Kimi/".toList : Str) = "Kimi".toList ++ ['/'] by decide, List.append_assoc]
    rfl
  have hOe : ("OpenAI/".toList : Str) ++ s = "OpenAI".toList ++ '/' :: s := by
    rw [show ("OpenAI/".toList : Str) = "OpenAI".toList ++ ['/'] by decide, List.append_assoc]
    rfl
  refine ⟨part1, part2, part3, ?_, ?_, ?_⟩
  · rw [hGe]
    exact part1 _ (Or.inr (by decide))
  · rw [hKe]
    exact part2 _ (Or.inr (by decide))
  · rw [hOe]
    exact part3 _ (by decide) (by decide)

/-- Witness for C10 at concrete mixed-case namespaces. -/
theorem C10_namespace_case_handling_witness :
    zhipu_supports_model ("ZHIPU".toList ++ '/' :: "x".toList) = true ∧
    moonshot_supports_model ("KiMi".toList ++ '/' :: "x".toList) = true ∧
    openrouter_supports_model ("Anthropic".toList ++ '/' :: "x".toList) = false :=
  ⟨ (C10_namespace_case_handling ("x".toList)).1 ("ZHIPU".toList) (Or.inl (by decide)),
    (C10_namespace_case_handling ("x".toList)).2.1 ("KiMi".toList) (Or.inr (by decide)),
    (C10_namespace_case_handling ("x".toList)).2.2.1 ("Anthropic".toList)
      (by decide) (by decide) ⟩

/-- find? returns the element at the first position satisfying the
predicate. -/
theorem find?_eq_of_first {α : Type} (p : α → Bool) (l : List α) :
    ∀ (i : Nat) (hi : i < l.length), p (l.get ⟨i, hi⟩) = true →
    (∀ (j : Nat), j < i → ∀ (hj : j < l.length), p (l.get ⟨j, hj⟩) = false) →
    l.find? p = some (l.get ⟨i, hi⟩) := by
  induction l with
  | nil =>
    intro i hi
    exact absurd hi (by simp)
  | cons a l ih =>
    intro i hi hpi hbefore
    cases i with
    | zero =>
      simp only [List.get] at hpi
      simp [List.find?_cons_of_pos, hpi]
    | succ n =>
      have ha : p a = false := hbefore 0 (Nat.succ_pos n) (by simp)
      rw [List.find?_cons_of_neg _ (by simp [ha])]
      have hn : n < l.length := by
        simpa [Nat.succ_lt_succ_iff] using hi
      have hpn : p (l.get ⟨n, hn⟩) = true := by
        simpa [List.get] using hpi
      have hb : ∀ (j : Nat), j < n → ∀ (hj : j < l.length), p (l.get ⟨j, hj⟩) = false := by
        intro j hj hjl
        have := hbefore (j + 1) (Nat.succ_lt_succ hj) (Nat.succ_lt_succ hjl)
        simpa [List.get] using this
      simpa [List.get] using ih n hn hpn hb

/-- C1: get_provider returns the provider at the first position, in
registration (insertion) order, whose supports_model accepts the
identifier; when no registered provider matches it returns the adapter
stored under the default name whenever a default is set (its name
nonempty, as every adapter name of the program is); when no default is
set it returns none; and query_model surfaces a none resolution as the
failure outcome None. -/
theorem C1_get_provider_resolution (r : ProviderRegistry) (id : Str) :
    (∀ (i : Nat) (hi : i < r.providers.length),
        (r.providers.get ⟨i, hi⟩).2.supports_model id = true →
        (∀ (j : Nat), j < i → ∀ (hj : j < r.providers.length),
            (r.providers.get ⟨j, hj⟩).2.supports_model id = false) →
        r.get_provider id = some (r.providers.get ⟨i, hi⟩).2) ∧
    ((∀ pr ∈ r.providers, pr.2.supports_model id = false) →
        (∀ (d : Str) (p : Provider), r.default_provider = some d → d ≠ [] →
            dictGet? r.providers d = some p → r.get_provider id = some p) ∧
        (r.default_provider = none → r.get_provider id = none)) ∧
    (r.get_provider id = none →
        ∀ (q : Provider → Str → List Message → Option QueryResponse)
          (messages : List Message), r.query_model q id messages = none) := by
  refine ⟨?_, ?_, ?_⟩
  · intro i hi hpi hbefore
    unfold ProviderRegistry.get_provider
    rw [find?_eq_of_first _ _ i hi hpi hbefore]
  · intro hall
    have hfind : r.providers.find? (fun pr => pr.2.supports_model id) = none :=
      List.find?_eq_none.mpr (fun x hx => by simp [hall x hx])
    constructor
    · intro d p hd hdne hget
      unfold ProviderRegistry.get_provider
      rw [hfind, hd]
      simp [hdne, hget]
    · intro hd
      unfold ProviderRegistry.get_provider
      rw [hfind, hd]
  · intro hres q messages
    unfold ProviderRegistry.query_model
    rw [hres]

/-- Witness for C1: in the fully initialized registry the identifier
deepseek/deepseek-chat is not matched at position zero (OpenRouter) and
is matched at position one (DeepSeek), which get_provider returns. -/
theorem C1_get_provider_resolution_witness :
    fullRegistry.get_provider ("deepseek/deepseek-chat".toList) =
      some ((fullRegistry.providers.get ⟨1, by decide⟩).2) :=
  (C1_get_provider_resolution fullRegistry ("deepseek/deepseek-chat".toList)).1
    1 (by decide) (by decide)
    (fun j hj hjl => by
      have hj0 : j = 0 := Nat.lt_one_iff.mp hj
      subst hj0
      exact (by decide :
        (fullRegistry.providers.get ⟨0, by decide⟩).2.supports_model
          ("deepseek/deepseek-chat".toList) = false))

/-- A minimal adapter used in concrete registry scenarios. -/
def providerA : Provider := { name := "a".toList, supports_model := fun _ => false }

/-- A second minimal adapter used in concrete registry scenarios. -/
def providerB : Provider := { name := "b".toList, supports_model := fun _ => false }

/-- C4 counterexample: after register(A, default) the fallback of the
instance is A, yet a subsequent register(B, default) changes it to B —
the fallback is neither the first adapter registered with default
intent nor fixed once chosen. -/
theorem C4_counterexample :
    (ProviderRegistry.empty.register providerA true).default_provider = some ("a".toList) ∧
    ((ProviderRegistry.empty.register providerA true).register providerB
        true).default_provider = some ("b".toList) ∧
    ("b".toList : Str) ≠ "a".toList :=
  ⟨rfl, rfl, by decide⟩

/-- Build a registry by a sequence of register calls on a fresh
instance. -/
def applyRegistrations (ops : List (Provider × Bool)) : ProviderRegistry :=
  ops.foldl (fun r op => r.register op.1 op.2) ProviderRegistry.empty

/-- The default provider after folding register calls over any starting
registry: the most recent call with default intent wins; otherwise the
starting default survives; otherwise the first call of the sequence. -/
theorem default_after_foldl (ops : List (Provider × Bool)) (r : ProviderRegistry) :
    (ops.foldl (fun r op => r.register op.1 op.2) r).default_provider =
      match (ops.filter (fun op => op.2)).getLast? with
      | some op => some op.1.name
      | none =>
        match r.default_provider with
        | some d => some d
        | none => (ops.head?).map (fun op => op.1.name) := by
  induction ops generalizing r with
  | nil =>
    rw [List.foldl_nil]
    cases hrd : r.default_provider <;> rfl
  | cons op ops ih =>
    rw [List.foldl_cons, ih]
    cases hop : op.2 with
    | true =>
      have hfil : (op :: ops).filter (fun o => o.2) = op :: ops.filter (fun o => o.2) := by
        simp [List.filter_cons, hop]
      have hdef : (r.register op.1 true).default_provider = some op.1.name := by
        unfold ProviderRegistry.register
        simp
      rw [hfil, hdef]
      cases hfo : (ops.filter (fun o => o.2)).getLast? with
      | some o =>
        have hne : ops.filter (fun o => o.2) ≠ [] := by
          intro hh
          rw [hh] at hfo
          simp at hfo
        obtain ⟨b, l, hbl⟩ := List.exists_cons_of_ne_nil hne
        rw [hbl] at hfo
        rw [hbl, List.getLast?_cons_cons, hfo]
      | none =>
        have hnil : ops.filter (fun o => o.2) = [] := by
          cases hh : ops.filter (fun o => o.2) with
          | nil => rfl
          | cons b l =>
            rw [hh] at hfo
            simp at hfo
        rw [hnil]
        rfl
    | false =>
      have hfil : (op :: ops).filter (fun o => o.2) = ops.filter (fun o => o.2) := by
        simp [List.filter_cons, hop]
      rw [hfil]
      cases hrd : r.default_provider with
      | none =>
        have hdef : (r.register op.1 false).default_provider = some op.1.name := by
          unfold ProviderRegistry.register
          simp [hrd]
        rw [hdef]
        cases (ops.filter (fun o => o.2)).getLast? <;> rfl
      | some d =>
        have hdef : (r.register op.1 false).default_provider = some d := by
          unfold ProviderRegistry.register
          simp [hrd]
        rw [hdef]

/-- C4 amended: for every sequence of register calls on a fresh
ProviderRegistry instance, the fallback adapter is the most recently
registered adapter with default intent; if none was ever marked
default, it is the first adapter registered; a later registration with
default intent therefore replaces the previously chosen fallback. -/
theorem C4_fallback_most_recent_default (ops : List (Provider × Bool)) :
    (applyRegistrations ops).default_provider =
      match (ops.filter (fun op => op.2)).getLast? with
      | some op => some op.1.name
      | none => (ops.head?).map (fun op => op.1.name) := by
  rw [applyRegistrations, default_after_foldl]
  cases (ops.filter (fun op => op.2)).getLast? <;> rfl

/-- C5: when provider resolution fails, query_model returns the
failure outcome None without invoking any adapter's query (its
invocation trace is empty); and in a registry with zero registered
adapters resolution fails for every identifier. -/
theorem C5_resolution_failure_returns_none {α : Type} (r : ProviderRegistry)
    (q : Provider → Str → List Message → Option α) (model : Str)
    (messages : List Message) (h : r.get_provider model = none) :
    r.query_model_traced q model messages = (none, []) ∧
    r.query_model q model messages = none ∧
    ProviderRegistry.empty.get_provider model = none := by
  refine ⟨?_, ?_, rfl⟩
  · unfold ProviderRegistry.query_model_traced
    rw [h]
  · unfold ProviderRegistry.query_model
    rw [h]

/-- Witness for C5 on the empty registry at a concrete identifier. -/
theorem C5_resolution_failure_returns_none_witness :
    ProviderRegistry.empty.query_model_traced
        (fun _ _ _ => (none : Option QueryResponse)) ("deepseek/deepseek-chat".toList) []
      = (none, []) ∧
    ProviderRegistry.empty.query_model
        (fun _ _ _ => (none : Option QueryResponse)) ("deepseek/deepseek-chat".toList) []
      = none ∧
    ProviderRegistry.empty.get_provider ("deepseek/deepseek-chat".toList) = none :=
  C5_resolution_failure_returns_none ProviderRegistry.empty
    (fun _ _ _ => (none : Option QueryResponse)) ("deepseek/deepseek-chat".toList) [] rfl

/-- C2: for every adapter variant, model, message list and backend
behavior (covering every timeout, since a timeout only influences the
exchange outcome), the query operation is a total function into an
Option — the catch-all except clause means no exception reaches the
caller — and it returns the failure outcome None whenever the exchange
raises a transport error, the response carries a non-success status,
the body is not decodable JSON, or an expected field of the decoded
body (choices, its first element, message, or a usable message dict for
the content lookup) is malformed or absent; conversely a non-None
outcome only arises from a success status with all expected fields
present. -/
theorem C2_query_failure_yields_none (a : Adapter) (model : Str)
    (messages : List Message) (net : RequestPayload → HttpResult) :
    (net (adapter_request a model messages) = HttpResult.transportError →
        adapter_query a model messages net = none) ∧
    (∀ (st : Nat) (body : Option Json),
        net (adapter_request a model messages) = HttpResult.response st body →
        ¬(200 ≤ st ∧ st < 300) → adapter_query a model messages net = none) ∧
    (∀ (st : Nat), net (adapter_request a model messages) = HttpResult.response st none →
        adapter_query a model messages net = none) ∧
    (∀ (st : Nat) (data : Json),
        net (adapter_request a model messages) = HttpResult.response st (some data) →
        extractMessage data = Except.error () →
        adapter_query a model messages net = none) ∧
    (∀ (st : Nat) (data : Json) (message : Json),
        net (adapter_request a model messages) = HttpResult.response st (some data) →
        extractMessage data = Except.ok message →
        jsonGet message ("content".toList) = Except.error () →
        adapter_query a model messages net = none) ∧
    (∀ (resp : QueryResponse), adapter_query a model messages net = some resp →
        ∃ (st : Nat) (data : Json),
          net (adapter_request a model messages) = HttpResult.response st (some data) ∧
          (200 ≤ st ∧ st < 300) ∧
          adapterTryBody a (HttpResult.response st (some data)) = Except.ok resp) := by
  refine ⟨?_, ?_, ?_, ?_, ?_, ?_⟩
  · intro h
    simp only [adapter_query]
    rw [h]
    rfl
  · intro st body h hst
    simp only [adapter_query]
    rw [h]
    simp only [adapterTryBody]
    rw [if_neg hst]
  · intro st h
    simp only [adapter_query]
    rw [h]
    simp only [adapterTryBody]
    by_cases hst : 200 ≤ st ∧ st < 300
    · rw [if_pos hst]
    · rw [if_neg hst]
  · intro st data h hext
    simp only [adapter_query]
    rw [h]
    simp only [adapterTryBody]
    by_cases hst : 200 ≤ st ∧ st < 300
    · rw [if_pos hst]
      simp only [hext]
    · rw [if_neg hst]
  · intro st data message h hext hcon
    simp only [adapter_query]
    rw [h]
    simp only [adapterTryBody]
    by_cases hst : 200 ≤ st ∧ st < 300
    · rw [if_pos hst]
      simp only [hext, hcon]
    · rw [if_neg hst]
  · intro resp h
    simp only [adapter_query] at h
    cases hnet : net (adapter_request a model messages) with
    | transportError =>
      rw [hnet] at h
      simp only [adapterTryBody] at h
      exact absurd h (by simp)
    | response st body =>
      rw [hnet] at h
      refine ⟨st, ?_⟩
      cases htb : adapterTryBody a (HttpResult.response st body) with
      | error e =>
        rw [htb] at h
        exact absurd h (by simp)
      | ok v =>
        rw [htb] at h
        have hv : v = resp := by simpa using h
        by_cases hst : 200 ≤ st ∧ st < 300
        · cases body with
          | none =>
            simp [adapterTryBody, hst] at htb
          | some data =>
            exact ⟨data, rfl, hst, by rw [← hv]; exact htb⟩
        · simp [adapterTryBody, hst] at htb

/-- Witness for C2: a transport error yields the failure outcome. -/
theorem C2_query_failure_yields_none_witness :
    adapter_query Adapter.deepseek ("deepseek/deepseek-chat".toList) []
      (fun _ => HttpResult.transportError) = none :=
  (C2_query_failure_yields_none Adapter.deepseek ("deepseek/deepseek-chat".toList) []
    (fun _ => HttpResult.transportError)).1 rfl

/-- Looking up the key just stored finds the stored value. -/
theorem dictGet?_cons_self {α : Type} (a : Str × α) (d : List (Str × α)) (k : Str)
    (h : a.1 = k) : dictGet? (a :: d) k = some a.2 := by
  simp [dictGet?, List.find?_cons_of_pos, h]

/-- Looking up a different key skips the head entry. -/
theorem dictGet?_cons_ne {α : Type} (a : Str × α) (d : List (Str × α)) (k : Str)
    (h : a.1 ≠ k) : dictGet? (a :: d) k = dictGet? d k := by
  simp [dictGet?, List.find?_cons_of_neg, h]

/-- Dict assignment only adds the assigned pair. -/
theorem mem_dictInsert {α : Type} (d : List (Str × α)) (k : Str) (v : α) (p : Str × α)
    (h : p ∈ dictInsert d k v) : p ∈ d ∨ p = (k, v) := by
  induction d with
  | nil =>
    simp [dictInsert] at h
    simp [h]
  | cons a d ih =>
    unfold dictInsert at h
    by_cases hk : a.1 = k
    · rw [if_pos hk] at h
      rcases List.mem_cons.mp h with h1 | h2
      · right
        exact h1
      · left
        exact List.mem_cons_of_mem _ h2
    · rw [if_neg hk] at h
      rcases List.mem_cons.mp h with h1 | h2
      · left
        rw [h1]
        exact List.mem_cons_self _ _
      · rcases ih h2 with h3 | h3
        · left
          exact List.mem_cons_of_mem _ h3
        · right
          exact h3

/-- The keys after a dict assignment are the old keys plus the assigned
key. -/
theorem mem_dictKeys_dictInsert {α : Type} (d : List (Str × α)) (k : Str) (v : α)
    (x : Str) : x ∈ dictKeys (dictInsert d k v) ↔ x ∈ dictKeys d ∨ x = k := by
  induction d with
  | nil => simp [dictInsert, dictKeys]
  | cons a d ih =>
    unfold dictInsert
    by_cases hk : a.1 = k
    · rw [if_pos hk]
      simp only [dictKeys, List.map_cons, List.mem_cons]
      rw [hk]
      tauto
    · rw [if_neg hk]
      simp only [dictKeys, List.map_cons, List.mem_cons] at ih ⊢
      rw [ih]
      tauto

/-- Dict assignment preserves key uniqueness. -/
theorem nodup_dictKeys_dictInsert {α : Type} (d : List (Str × α)) (k : Str) (v : α)
    (h : (dictKeys d).Nodup) : (dictKeys (dictInsert d k v)).Nodup := by
  induction d with
  | nil => simp [dictInsert, dictKeys]
  | cons a d ih =>
    unfold dictInsert
    simp only [dictKeys, List.map_cons, List.nodup_cons] at h
    by_cases hk : a.1 = k
    · rw [if_pos hk]
      simp only [dictKeys, List.map_cons, List.nodup_cons]
      rw [← hk]
      exact h
    · rw [if_neg hk]
      simp only [dictKeys, List.map_cons, List.nodup_cons]
      constructor
      · intro hmem
        rcases (mem_dictKeys_dictInsert d k v a.1).mp hmem with h1 | h1
        · exact h.1 h1
        · exact hk h1
      · exact ih h.2

/-- Every value in a dict built by inserting Q-consistent pairs into a
Q-consistent dict is Q of its key. -/
theorem foldl_dictInsert_good {α : Type} (Q : Str → α) (ps : List (Str × α))
    (d : List (Str × α)) (hg : ∀ p ∈ d, p.2 = Q p.1) (hp : ∀ p ∈ ps, p.2 = Q p.1) :
    ∀ p ∈ ps.foldl (fun d p => dictInsert d p.1 p.2) d, p.2 = Q p.1 := by
  induction ps generalizing d with
  | nil =>
    simp only [List.foldl_nil]
    exact hg
  | cons b ps ih =>
    rw [List.foldl_cons]
    apply ih
    · intro p hpmem
      rcases mem_dictInsert _ _ _ _ hpmem with h1 | h1
      · exact hg p h1
      · rw [h1]
        simpa using hp b (by simp)
    · intro p hpmem
      exact hp p (by simp [hpmem])

/-- The keys of a dict built by folding insertions are the starting
keys together with the keys of the inserted pairs. -/
theorem foldl_dictInsert_keys {α : Type} (ps : List (Str × α)) (d : List (Str × α))
    (x : Str) :
    x ∈ dictKeys (ps.foldl (fun d p => dictInsert d p.1 p.2) d) ↔
      x ∈ dictKeys d ∨ x ∈ ps.map (fun p => p.1) := by
  induction ps generalizing d with
  | nil => simp
  | cons b ps ih =>
    rw [List.foldl_cons, ih, mem_dictKeys_dictInsert]
    simp only [List.map_cons, List.mem_cons]
    tauto

/-- Folding insertions preserves key uniqueness. -/
theorem foldl_dictInsert_nodup {α : Type} (ps : List (Str × α)) (d : List (Str × α))
    (h : (dictKeys d).Nodup) :
    (dictKeys (ps.foldl (fun d p => dictInsert d p.1 p.2) d)).Nodup := by
  induction ps generalizing d with
  | nil => simpa using h
  | cons b ps ih =>
    rw [List.foldl_cons]
    exact ih _ (nodup_dictKeys_dictInsert _ _ _ h)

/-- In a dict whose values are Q of their keys, lookup of a present key
returns Q of it. -/
theorem dictGet?_eq_of_good {α : Type} (Q : Str → α) (d : List (Str × α))
    (hg : ∀ p ∈ d, p.2 = Q p.1) (x : Str) (hx : x ∈ dictKeys d) :
    dictGet? d x = some (Q x) := by
  induction d with
  | nil => simp [dictKeys] at hx
  | cons a d ih =>
    by_cases hk : a.1 = x
    · rw [dictGet?_cons_self _ _ _ hk]
      have := hg a (List.mem_cons_self _ _)
      rw [this, hk]
    · rw [dictGet?_cons_ne _ _ _ hk]
      apply ih
      · intro p hp
        exact hg p (List.mem_cons_of_mem _ hp)
      · simp only [dictKeys, List.map_cons, List.mem_cons] at hx
        rcases hx with h1 | h1
        · exact absurd h1.symm hk
        · exact h1

/-- C3 counterexample: on the duplicated input list [m, m] the mapping
returned by query_models_parallel has a single entry, not the
cardinality 2 of the input list. -/
theorem C3_counterexample :
    (ProviderRegistry.empty.query_models_parallel
        (fun _ _ _ => (none : Option QueryResponse)) [ "m".toList, "m".toList ] []).length
      = 1 ∧
    ([ "m".toList, "m".toList ] : List Str).length = 2 :=
  ⟨rfl, rfl⟩

/-- C3 amended: every element of the input list produces an entry keyed
by itself whose value is the outcome of querying that identifier; the
mapping holds exactly one entry per distinct input identifier — its
keys are duplicate-free and are exactly the identifiers occurring in
the input — so its cardinality is the number of distinct input
identifiers, which is smaller than the input cardinality when
duplicates occur; duplicated identifiers still produce independent
calls, whose outcomes land on the single entry of their shared key
(the value written last in input order, the order gather returns). -/
theorem C3_parallel_one_entry_per_identifier {α : Type} (r : ProviderRegistry)
    (q : Provider → Str → List Message → Option α) (models : List Str)
    (messages : List Message) :
    (∀ m ∈ models,
        dictGet? (r.query_models_parallel q models messages) m =
          some (r.query_model q m messages)) ∧
    (dictKeys (r.query_models_parallel q models messages)).Nodup ∧
    (∀ k, k ∈ dictKeys (r.query_models_parallel q models messages) ↔ k ∈ models) ∧
    (r.query_models_parallel q models messages).length = models.dedup.length := by
  have hgood : ∀ p ∈ r.query_models_parallel q models messages,
      p.2 = (fun m => r.query_model q m messages) p.1 := by
    apply foldl_dictInsert_good (fun m => r.query_model q m messages)
    · intro p hp
      simp at hp
    · intro p hp
      rcases List.mem_map.mp hp with ⟨m, hm, hpm⟩
      rw [← hpm]
  have hmemkeys : ∀ k, k ∈ dictKeys (r.query_models_parallel q models messages) ↔
      k ∈ models := by
    intro k
    unfold ProviderRegistry.query_models_parallel dictOfPairs
    rw [foldl_dictInsert_keys]
    simp [dictKeys, List.map_map, Function.comp]
  have hnodup : (dictKeys (r.query_models_parallel q models messages)).Nodup := by
    apply foldl_dictInsert_nodup
    simp [dictKeys]
  refine ⟨?_, hnodup, hmemkeys, ?_⟩
  · intro m hm
    exact dictGet?_eq_of_good (fun m => r.query_model q m messages) _ hgood m
      ((hmemkeys m).mpr hm)
  · have h1 : (r.query_models_parallel q models messages).length =
        (dictKeys (r.query_models_parallel q models messages)).length := by
      simp [dictKeys]
    have hperm : (dictKeys (r.query_models_parallel q models messages)).Perm
        models.dedup :=
      (List.perm_ext_iff_of_nodup hnodup models.nodup_dedup).mpr
        (fun a => by rw [hmemkeys a, List.mem_dedup])
    rw [h1, hperm.length_eq]

/-- Witness for C3: on the duplicated input [m, m] the single entry for
m holds the outcome of querying m. -/
theorem C3_parallel_one_entry_per_identifier_witness :
    dictGet? (ProviderRegistry.empty.query_models_parallel
        (fun _ _ _ => (none : Option QueryResponse)) [ "m".toList, "m".toList ] [])
        ("m".toList)
      = some (ProviderRegistry.empty.query_model
          (fun _ _ _ => (none : Option QueryResponse)) ("m".toList) []) :=
  (C3_parallel_one_entry_per_identifier ProviderRegistry.empty
      (fun _ _ _ => (none : Option QueryResponse)) [ "m".toList, "m".toList ] []).1
    ("m".toList) (by simp)
